import Mathlib

/-!
Verification of the packet framing / buffering logic of the biogui data
sources, embedded shallowly from `src/biogui/data_sources/serial.py`,
`src/biogui/data_sources/tcp.py` and `src/biogui/data_sources/ble.py`.

The Qt `QByteArray` buffer becomes a `List Byte`; a `readyRead` /
`characteristicChanged` notification delivering a chunk becomes a pure
function from the worker state and the chunk to the next state plus the
list of packets passed to `dataPacketReady.emit` during that call.
-/

namespace BioGui

/-- Bytes are modelled as natural numbers; the framing logic never
inspects byte values, so no upper bound is imposed. -/
abbrev Byte := Nat

/-- Buffer-relevant state of a data-source worker: the fields
`_packetSize : int` and `_buffer : QByteArray` shared by
`SerialDataSourceWorker`, `TCPDataSourceWorker` and `BLEDataSourceWorker`.
`packetSize` is an `Int` because the Python constructors accept any
integer. -/
structure DataSourceWorker where
  packetSize : Int
  buffer : List Byte
deriving DecidableEq, Repr

/-- Construction-time error named by the spec (`InvalidConfiguration`). -/
inductive ConfigError where
  | invalidConfiguration
deriving DecidableEq, Repr

/-- Model of `SerialDataSourceWorker.__init__` (serial.py lines 183-205)
and `TCPDataSourceWorker.__init__` (tcp.py lines 152-169): the constructor
stores `packetSize` unchecked and sets `self._buffer = QByteArray()`.
Neither constructor contains a raise statement or any validation of
`packetSize`, so construction always succeeds. -/
def initWorker (packetSize : Int) : Except ConfigError DataSourceWorker :=
  .ok { packetSize := packetSize, buffer := [] }

/-- Model of `SerialDataSourceWorker._collectData` (serial.py lines
246-253) and of the textually identical `TCPDataSourceWorker._collectData`
(tcp.py lines 225-231):

    self._buffer.append(<chunk read from transport>)
    if self._buffer.size() >= self._packetSize:
        data = self._buffer.mid(0, self._packetSize).data()
        self.dataPacketReady.emit(data)
        self._buffer.remove(0, self._packetSize)

Returns the new worker state and the list of packets emitted during this
call (`[]` or one packet, since the source uses `if`, not `while`). -/
def collectData (w : DataSourceWorker) (chunk : List Byte) :
    DataSourceWorker × List (List Byte) :=
  let buf := w.buffer ++ chunk
  if w.packetSize ≤ (buf.length : Int) then
    ({ packetSize := w.packetSize, buffer := buf.drop w.packetSize.toNat },
      [buf.take w.packetSize.toNat])
  else
    ({ packetSize := w.packetSize, buffer := buf }, [])

/-- The `struct.error` exception raised by `struct.unpack` on a buffer of
the wrong length. -/
inductive StructError where
  | unpackError
deriving DecidableEq, Repr

/-- Model of `BLEDataSourceWorker._collectData` (ble.py lines 421-430):

    nums = struct.unpack(f"<N>I", data)   -- N = len(data)//4
    self._buffer.append(data)
    if self._buffer.size() >= self._packetSize:
        dati = self._buffer.mid(0, self._packetSize).data()
        self.dataPacketReady.emit(dati)
        self._buffer.remove(0, self._packetSize)

`struct.unpack` with format string "NI" (N unsigned 4-byte integers, with
N computed as `len(data)//4` by floor division) requires a buffer of
exactly `4*N` bytes, so it succeeds exactly when `len(data)` is a multiple
of 4 and raises `struct.error` otherwise; the exception propagates before
`append` runs, so on the error path the buffer is untouched and nothing is
emitted. The unpacked values `nums` are only printed, never stored. -/
def bleCollectData (w : DataSourceWorker) (data : List Byte) :
    Except StructError (DataSourceWorker × List (List Byte)) :=
  if data.length % 4 = 0 then
    let buf := w.buffer ++ data
    if w.packetSize ≤ (buf.length : Int) then
      .ok ({ packetSize := w.packetSize, buffer := buf.drop w.packetSize.toNat },
        [buf.take w.packetSize.toNat])
    else
      .ok ({ packetSize := w.packetSize, buffer := buf }, [])
  else
    .error .unpackError

/-- Feeding a sequence of chunks one call at a time (one `readyRead`
notification per chunk, as the transports deliver them): the final worker
state and the concatenated list of all packets emitted, in order. -/
def collectMany : DataSourceWorker → List (List Byte) → DataSourceWorker × List (List Byte)
  | w, [] => (w, [])
  | w, c :: cs =>
    ((collectMany (collectData w c).1 cs).1,
      (collectData w c).2 ++ (collectMany (collectData w c).1 cs).2)

/-- Effect of `stopCollecting` on the worker's buffer state: every
transport ends its `stopCollecting` with `self._buffer = QByteArray()`
(serial.py line 244, tcp.py line 205, ble.py line 416); no
`dataPacketReady.emit` occurs there. The stop-command writes and the
transport close do not touch the buffer. -/
def stopCollecting (w : DataSourceWorker) : DataSourceWorker :=
  { packetSize := w.packetSize, buffer := [] }

/-- Current buffer length, `self._buffer.size()`; the spec calls this
observer `pendingByteCount`. -/
def pendingByteCount (w : DataSourceWorker) : Nat := w.buffer.length

/-- One element of a start/stop command sequence: a literal byte string,
or a `float` delay in seconds. Elements of any other Python type match
neither branch of the source's `type(c) is bytes` / `type(c) is float`
tests and are not modelled. -/
inductive CmdElem where
  | cmd (b : List Byte)
  | delay (t : ℚ)

/-- The byte strings written to the transport by the serial and TCP
start/stop loops (serial.py lines 219-224 and 233-238, tcp.py lines
190-195 and 216-221), in order:

    for c in seq:
        if type(c) is bytes: <transport>.write(c)
        elif type(c) is float: time.sleep(c)

Byte-string elements are written verbatim; delays write nothing. -/
def serialWriteTrace : List CmdElem → List (List Byte)
  | [] => []
  | CmdElem.cmd b :: rest => b :: serialWriteTrace rest
  | CmdElem.delay _ :: rest => serialWriteTrace rest

/-- The `UnicodeDecodeError` exception raised by Python's
`bytes.decode("utf-8")` on a byte string that is not valid UTF-8. -/
inductive UnicodeError where
  | decodeError
deriving DecidableEq, Repr

/-- UTF-8 validity checker, one byte per step. The first three arguments
are the state: how many continuation bytes are still expected, and the
admissible range for the next one (after the first continuation byte the
range is always 128-191). The leading-byte dispatch is the well-formed
byte-sequence table of the Unicode standard (RFC 3629), which is exactly
what Python's strict "utf-8" codec accepts: ASCII; 194-223 plus one
continuation; 224 / 225-236 / 237 (surrogates excluded) / 238-239 plus
two; 240 / 241-243 / 244 (capped at U+10FFFF) plus three; everything
else (192-193, 245-255, stray continuations) is invalid. -/
def utf8Aux : Nat → Nat → Nat → List Byte → Bool
  | 0, _, _, [] => true
  | 0, _, _, b :: rest =>
    if b ≤ 127 then utf8Aux 0 0 0 rest
    else if 194 ≤ b && b ≤ 223 then utf8Aux 1 128 191 rest
    else if b == 224 then utf8Aux 2 160 191 rest
    else if 225 ≤ b && b ≤ 236 then utf8Aux 2 128 191 rest
    else if b == 237 then utf8Aux 2 128 159 rest
    else if 238 ≤ b && b ≤ 239 then utf8Aux 2 128 191 rest
    else if b == 240 then utf8Aux 3 144 191 rest
    else if 241 ≤ b && b ≤ 243 then utf8Aux 3 128 191 rest
    else if b == 244 then utf8Aux 3 128 143 rest
    else false
  | _ + 1, _, _, [] => false
  | n + 1, lo, hi, b :: rest =>
    if lo ≤ b && b ≤ hi then utf8Aux n 128 191 rest else false

/-- Whether a byte string is valid UTF-8: `c.decode("utf-8")` succeeds
exactly on these inputs and raises `UnicodeDecodeError` on all others. -/
def isValidUtf8 (b : List Byte) : Bool := utf8Aux 0 0 0 b

/-- The payload the BLE worker builds from a byte-string command element
that IS valid UTF-8 (ble.py lines 385-393 and 405-413):
`(c.decode("utf-8") + "\r\n").encode("utf-8")`. On a valid-UTF-8 byte
string the decode/encode round-trips, so the payload is the original
bytes followed by CR (13) and LF (10). `bleWriteTrace` applies it only
after the decode has succeeded; the failure path is modelled there. -/
def blePayload (b : List Byte) : List Byte := b ++ [13, 10]

/-- The BLE start/stop loops (`writeCharacteristic` calls): the byte
strings actually written, in order, paired with the exception outcome.
Each byte-string element is first decoded — a non-UTF-8 element raises
`UnicodeDecodeError`, which propagates out of the loop, so that element
and every element after it are never executed while the writes already
performed stand — and on success is sent as `blePayload`; delays write
nothing. -/
def bleWriteTrace : List CmdElem → List (List Byte) × Option UnicodeError
  | [] => ([], none)
  | CmdElem.cmd b :: rest =>
    if isValidUtf8 b then
      (blePayload b :: (bleWriteTrace rest).1, (bleWriteTrace rest).2)
    else
      ([], some UnicodeError.decodeError)
  | CmdElem.delay _ :: rest => bleWriteTrace rest

/-- The byte-string elements of a command sequence, in order (the spec's
view of what a handshake should write). -/
def cmdBytes : List CmdElem → List (List Byte)
  | [] => []
  | CmdElem.cmd b :: rest => b :: cmdBytes rest
  | CmdElem.delay _ :: rest => cmdBytes rest

/-! ### Helper lemmas -/

/-- One `collectData` call conserves bytes: the emitted packets followed
by the new buffer are exactly the old buffer followed by the chunk. -/
theorem collectData_conserves (w : DataSourceWorker) (c : List Byte) :
    ((collectData w c).2).flatten ++ (collectData w c).1.buffer = w.buffer ++ c := by
  unfold collectData
  dsimp only
  split
  · simp
  · simp

/-- `collectData` preserves the packet size. -/
theorem collectData_packetSize (w : DataSourceWorker) (c : List Byte) :
    (collectData w c).1.packetSize = w.packetSize := by
  unfold collectData
  dsimp only
  split <;> rfl

/-- `collectData` in the emitting case: the appended buffer holds at
least `packetSize` bytes, one packet is sliced off the front. -/
theorem collectData_emits (w : DataSourceWorker) (c : List Byte)
    (h : w.packetSize ≤ ((w.buffer ++ c).length : Int)) :
    collectData w c
      = ({ packetSize := w.packetSize,
            buffer := (w.buffer ++ c).drop w.packetSize.toNat },
          [(w.buffer ++ c).take w.packetSize.toNat]) := by
  unfold collectData
  dsimp only
  rw [if_pos h]

/-- `collectData` in the buffering case: fewer than `packetSize` bytes
after the append, nothing is emitted. -/
theorem collectData_buffers (w : DataSourceWorker) (c : List Byte)
    (h : ¬ w.packetSize ≤ ((w.buffer ++ c).length : Int)) :
    collectData w c = ({ packetSize := w.packetSize, buffer := w.buffer ++ c }, []) := by
  unfold collectData
  dsimp only
  rw [if_neg h]

/-- `bleCollectData` on a chunk whose length is not a multiple of 4:
`struct.unpack` raises. -/
theorem bleCollectData_raises (w : DataSourceWorker) (data : List Byte)
    (h : data.length % 4 ≠ 0) :
    bleCollectData w data = .error StructError.unpackError := by
  unfold bleCollectData
  rw [if_neg h]

/-- `bleCollectData` on a chunk whose length is a multiple of 4 behaves
exactly as the serial/TCP `collectData`. -/
theorem bleCollectData_ok (w : DataSourceWorker) (data : List Byte)
    (h : data.length % 4 = 0) :
    bleCollectData w data = .ok (collectData w data) := by
  unfold bleCollectData collectData
  dsimp only
  rw [if_pos h]
  split <;> rfl

/-- Any packet in the output of `collectData` is exactly `packetSize`
bytes long, and is only emitted when the appended buffer held at least
`packetSize` bytes. -/
theorem mem_collectData_packets (w : DataSourceWorker) (c pkt : List Byte)
    (hP : 0 < w.packetSize) (hm : pkt ∈ (collectData w c).2) :
    (pkt.length : Int) = w.packetSize
      ∧ w.packetSize ≤ ((w.buffer ++ c).length : Int) := by
  by_cases h : w.packetSize ≤ ((w.buffer ++ c).length : Int)
  · rw [collectData_emits w c h] at hm
    simp only [List.mem_singleton] at hm
    subst hm
    refine ⟨?_, h⟩
    simp only [List.length_take]
    push_cast
    omega
  · rw [collectData_buffers w c h] at hm
    simp at hm

/-- Conservation across a whole sequence of calls: all packets emitted,
followed by the final buffer, are the initial buffer followed by all
chunks. -/
theorem collectMany_conserves (chunks : List (List Byte)) (w : DataSourceWorker) :
    ((collectMany w chunks).2).flatten ++ (collectMany w chunks).1.buffer
      = w.buffer ++ chunks.flatten := by
  induction chunks generalizing w with
  | nil => simp [collectMany]
  | cons c cs ih =>
    simp only [collectMany, List.flatten_cons, List.flatten_append]
    rw [List.append_assoc, ih (collectData w c).1, ← List.append_assoc,
      collectData_conserves, List.append_assoc]

/-- Feeding the bytes of `rest` one at a time on top of a buffered
prefix `pre` that together make up exactly one packet: nothing is emitted
until the last byte arrives, then the single packet `pre ++ rest` is
emitted and the buffer is left empty. -/
theorem collectMany_singletons (P : Nat) (rest : List Byte) :
    ∀ pre : List Byte, pre.length + rest.length = P → rest ≠ [] →
      collectMany ⟨(P : Int), pre⟩ (rest.map fun b => [b])
        = (⟨(P : Int), []⟩, [pre ++ rest]) := by
  induction rest with
  | nil => intro pre _ hr; exact absurd rfl hr
  | cons x xs ih =>
    intro pre h _
    by_cases hxs : xs = []
    · subst hxs
      have hbuf : (pre ++ [x]).length = P := by simp at h ⊢; omega
      simp only [List.map_cons, List.map_nil, collectMany]
      rw [collectData_emits ⟨(P : Int), pre⟩ [x]
        (by show (P : Int) ≤ ((pre ++ [x]).length : Int); rw [hbuf])]
      simp [← hbuf]
    · have hlt : ¬ ((P : Int) ≤ ((pre ++ [x]).length : Int)) := by
        have hx : 0 < xs.length := List.length_pos.mpr hxs
        simp only [List.length_cons] at h
        simp only [List.length_append, List.length_singleton]
        push_cast
        omega
      simp only [List.map_cons, collectMany]
      rw [collectData_buffers ⟨(P : Int), pre⟩ [x] hlt]
      have hrec := ih (pre ++ [x]) (by simp at h ⊢; omega) hxs
      simp only at hrec
      rw [hrec]
      simp

/-- The serial/TCP handshake loop writes exactly the byte-string
elements, in order. -/
theorem serialWriteTrace_eq_cmdBytes (s : List CmdElem) :
    serialWriteTrace s = cmdBytes s := by
  induction s with
  | nil => rfl
  | cons e rest ih => cases e <;> simp [serialWriteTrace, cmdBytes, ih]

/-- When every byte-string element is valid UTF-8, the BLE handshake
loop writes the CRLF-suffixed payload of each one, in order, and no
exception is raised. -/
theorem bleWriteTrace_valid (s : List CmdElem)
    (h : ∀ x ∈ cmdBytes s, isValidUtf8 x = true) :
    bleWriteTrace s = ((cmdBytes s).map blePayload, none) := by
  induction s with
  | nil => rfl
  | cons e rest ih =>
    cases e with
    | cmd a =>
      have ha : isValidUtf8 a = true := h a (by simp [cmdBytes])
      have hrest : ∀ x ∈ cmdBytes rest, isValidUtf8 x = true := by
        intro x hx
        exact h x (by simp [cmdBytes, hx])
      simp [bleWriteTrace, cmdBytes, ha, ih hrest]
    | delay t =>
      have hrest : ∀ x ∈ cmdBytes rest, isValidUtf8 x = true := by
        intro x hx
        exact h x (by simp [cmdBytes, hx])
      simp [bleWriteTrace, cmdBytes, ih hrest]

/-- A non-UTF-8 byte-string element aborts the BLE handshake: only the
payloads of the byte-string elements strictly before it are written, it
and everything after it are skipped, and `UnicodeDecodeError` is
raised. -/
theorem bleWriteTrace_aborts (s s2 : List CmdElem) (b : List Byte)
    (h : ∀ x ∈ cmdBytes s, isValidUtf8 x = true) (hb : isValidUtf8 b = false) :
    bleWriteTrace (s ++ CmdElem.cmd b :: s2)
      = ((cmdBytes s).map blePayload, some UnicodeError.decodeError) := by
  induction s with
  | nil => simp [bleWriteTrace, cmdBytes, hb]
  | cons e rest ih =>
    cases e with
    | cmd a =>
      have ha : isValidUtf8 a = true := h a (by simp [cmdBytes])
      have hrest : ∀ x ∈ cmdBytes rest, isValidUtf8 x = true := by
        intro x hx
        exact h x (by simp [cmdBytes, hx])
      simp [bleWriteTrace, cmdBytes, ha, ih hrest]
    | delay t =>
      have hrest : ∀ x ∈ cmdBytes rest, isValidUtf8 x = true := by
        intro x hx
        exact h x (by simp [cmdBytes, hx])
      simp [bleWriteTrace, cmdBytes, ih hrest]

/-! ### Claims -/

/-- Claim C1: for every sequence of chunks fed to a freshly constructed
worker with packet size P > 0, the concatenation of all packets emitted
across all calls, followed by the bytes remaining in the buffer, equals
the concatenation of all fed chunks byte for byte: no byte is dropped,
duplicated, or reordered. -/
theorem packets_plus_remainder_eq_input (P : Int) (chunks : List (List Byte))
    (hP : 0 < P) :
    ((collectMany ⟨P, []⟩ chunks).2).flatten ++ (collectMany ⟨P, []⟩ chunks).1.buffer
      = chunks.flatten := by
  simpa using collectMany_conserves chunks ⟨P, []⟩

/-- Witness for C1 at P = 2 and chunks [[1,2,3],[4]]. -/
theorem packets_plus_remainder_eq_input_witness :
    (0:Int) < 2 ∧
      ((collectMany ⟨2, []⟩ [[1,2,3],[4]]).2).flatten
          ++ (collectMany ⟨2, []⟩ [[1,2,3],[4]]).1.buffer
        = [[1,2,3],[4]].flatten :=
  ⟨by decide, packets_plus_remainder_eq_input 2 [[1,2,3],[4]] (by decide)⟩

/-- Claim C2 (evaluation of the code at the claim's input): feeding 3P + 5
bytes in one call with P = 4 (17 bytes) emits exactly ONE packet, not
three, and leaves 13 buffered bytes, not 5: the handlers use `if`, not
`while`, so a single call never drains more than one packet. -/
theorem one_packet_from_large_chunk :
    collectMany ⟨4, []⟩ [[0,1,2,3,4,5,6,7,8,9,10,11,12,13,14,15,16]]
        = (⟨4, [4,5,6,7,8,9,10,11,12,13,14,15,16]⟩, [[0,1,2,3]])
      ∧ (collectMany ⟨4, []⟩ [[0,1,2,3,4,5,6,7,8,9,10,11,12,13,14,15,16]]).2.length = 1
      ∧ (collectMany ⟨4, []⟩ [[0,1,2,3,4,5,6,7,8,9,10,11,12,13,14,15,16]]).1.buffer.length
          = 13 := by
  decide

/-- Claim C5 (evaluation of the code at a violating input): with P = 4,
after feeding two successive 12-byte chunks the buffer holds 16 bytes,
which is not strictly less than P + 12 = 16: the `if`-based handler leaves
complete packets unextracted, so the buffer outgrows the spec's bound. -/
theorem buffer_outgrows_invariant :
    (collectMany ⟨4, []⟩ [List.range 12, List.range 12]).1.buffer.length = 16
      ∧ ¬ ((((collectMany ⟨4, []⟩ [List.range 12, List.range 12]).1.buffer.length : Int))
            < 4 + 12) := by
  decide

/-- Claim C6, counterexample: constructing a worker with packetSize = 0
does NOT fail with InvalidConfiguration; it succeeds and initializes an
empty buffer, because the constructors perform no validation at all. -/
theorem init_nonpositive_succeeds :
    initWorker 0 ≠ .error ConfigError.invalidConfiguration
      ∧ initWorker 0 = .ok ⟨0, []⟩ :=
  ⟨fun h => Except.noConfusion h, rfl⟩

/-- Claim C6, amended: construction with ANY packet size (positive or
not) succeeds and initializes an empty buffer; InvalidConfiguration is
never raised, at construction or later. -/
theorem init_always_succeeds (p : Int) : initWorker p = .ok ⟨p, []⟩ := rfl

/-- Claim C7, counterexample: the BLE handshake violates the claim
twice over: the element b"CMD" ([67,77,68]) is not written verbatim but
with CR LF appended, and the non-UTF-8 element b"\xff" ([255]) raises
UnicodeDecodeError, so neither it nor the element after it is ever
written — elements ARE altered and skipped. -/
theorem ble_write_not_verbatim :
    bleWriteTrace [CmdElem.cmd [67, 77, 68]] ≠ ([[67, 77, 68]], none)
      ∧ bleWriteTrace [CmdElem.cmd [67, 77, 68]] = ([[67, 77, 68, 13, 10]], none)
      ∧ bleWriteTrace [CmdElem.cmd [255], CmdElem.cmd [67]]
          = ([], some UnicodeError.decodeError) := by
  decide

/-- Claim C7, amended: the serial and TCP handshakes write exactly the
sequence's byte-string elements, verbatim and in arrival order, with
numeric elements producing only a delay and no element skipped,
reordered or altered. The BLE handshake, when every byte-string element
of the sequence is valid UTF-8, writes the same elements in the same
order but each one altered by appending CR LF ("\r\n"); if the sequence
contains a non-UTF-8 byte-string element, the BLE handshake writes the
CRLF-suffixed elements strictly before the first such element, then
raises UnicodeDecodeError, skipping that element and everything after
it. -/
theorem handshake_write_traces (s s2 : List CmdElem) (b : List Byte) :
    serialWriteTrace s = cmdBytes s
      ∧ ((∀ x ∈ cmdBytes s, isValidUtf8 x = true) →
          bleWriteTrace s = ((cmdBytes s).map blePayload, none))
      ∧ ((∀ x ∈ cmdBytes s, isValidUtf8 x = true) → isValidUtf8 b = false →
          bleWriteTrace (s ++ CmdElem.cmd b :: s2)
            = ((cmdBytes s).map blePayload, some UnicodeError.decodeError)) :=
  ⟨serialWriteTrace_eq_cmdBytes s, bleWriteTrace_valid s,
    fun h hb => bleWriteTrace_aborts s s2 b h hb⟩

/-- Witness for C7's amended theorem: the all-valid branch at the
sequence [b"C", 1.0, b"D"], and the abort branch with b"\xff" appended
to it. -/
theorem handshake_write_traces_witness :
    bleWriteTrace [CmdElem.cmd [67], CmdElem.delay 1, CmdElem.cmd [68]]
        = ((cmdBytes [CmdElem.cmd [67], CmdElem.delay 1, CmdElem.cmd [68]]).map
            blePayload, none)
      ∧ bleWriteTrace ([CmdElem.cmd [67], CmdElem.delay 1, CmdElem.cmd [68]]
            ++ CmdElem.cmd [255] :: [])
          = ((cmdBytes [CmdElem.cmd [67], CmdElem.delay 1, CmdElem.cmd [68]]).map
              blePayload, some UnicodeError.decodeError) :=
  ⟨(handshake_write_traces [CmdElem.cmd [67], CmdElem.delay 1, CmdElem.cmd [68]]
      [] [255]).2.1 (by decide),
    (handshake_write_traces [CmdElem.cmd [67], CmdElem.delay 1, CmdElem.cmd [68]]
      [] [255]).2.2 (by decide) (by decide)⟩

/-- Claim C8: stopping a session always empties the buffer: afterwards
`pendingByteCount` is 0, any undersized trailing data is discarded without
being emitted (stopCollecting emits no packet), and a subsequent call of
the data-collection handler behaves exactly as on a freshly constructed
worker with the same packet size. -/
theorem stop_empties_buffer (w : DataSourceWorker) :
    pendingByteCount (stopCollecting w) = 0
      ∧ (stopCollecting w).buffer = []
      ∧ ∀ c, collectData (stopCollecting w) c = collectData ⟨w.packetSize, []⟩ c :=
  ⟨rfl, rfl, fun _ => rfl⟩

/-- Claim C10: the BLE data-collection handler unpacks the raw chunk
before buffering it, with a format derived from len(data)//4: a chunk
whose length is not a multiple of 4 raises struct.error and none of its
bytes are appended or emitted, while a chunk whose length is a multiple
of 4 is buffered exactly as by the serial/TCP handler. -/
theorem ble_unpack_guard (w : DataSourceWorker) (data : List Byte) :
    (data.length % 4 ≠ 0 → bleCollectData w data = .error StructError.unpackError)
      ∧ (data.length % 4 = 0 → bleCollectData w data = .ok (collectData w data)) := by
  constructor
  · intro h
    simp [bleCollectData, h]
  · intro h
    simp only [bleCollectData, collectData, h, if_pos]
    split <;> rfl

/-- Witness for C10: with P = 4, a 3-byte chunk raises struct.error and a
4-byte chunk is buffered normally. -/
theorem ble_unpack_guard_witness :
    bleCollectData ⟨4, []⟩ [1, 2, 3] = .error StructError.unpackError
      ∧ bleCollectData ⟨4, []⟩ [1, 2, 3, 4] = .ok (collectData ⟨4, []⟩ [1, 2, 3, 4]) :=
  ⟨(ble_unpack_guard ⟨4, []⟩ [1, 2, 3]).1 (by decide),
    (ble_unpack_guard ⟨4, []⟩ [1, 2, 3, 4]).2 (by decide)⟩

/-- Claim C3: every packet emitted by any of the three transports'
data-collection handlers has length exactly `packetSize`, and a packet is
only emitted when at least `packetSize` unconsumed bytes are buffered
(buffer plus chunk) — no short packet is ever emitted. -/
theorem no_short_packet (w : DataSourceWorker) (c pkt : List Byte)
    (hP : 0 < w.packetSize) :
    (pkt ∈ (collectData w c).2 →
        (pkt.length : Int) = w.packetSize
          ∧ w.packetSize ≤ ((w.buffer ++ c).length : Int))
      ∧ (∀ w2 pkts, bleCollectData w c = .ok (w2, pkts) → pkt ∈ pkts →
          (pkt.length : Int) = w.packetSize) := by
  constructor
  · exact mem_collectData_packets w c pkt hP
  · intro w2 pkts heq hm
    by_cases h4 : c.length % 4 = 0
    · rw [bleCollectData_ok w c h4] at heq
      have hp : pkts = (collectData w c).2 :=
        (congrArg Prod.snd (Except.ok.inj heq)).symm
      exact (mem_collectData_packets w c pkt hP (hp ▸ hm)).1
    · rw [bleCollectData_raises w c h4] at heq
      exact Except.noConfusion heq

/-- Witness for C3: with P = 2 the serial/TCP handler fed [1,2,3] emits
the packet [1,2] of length 2. -/
theorem no_short_packet_witness :
    (([1, 2] : List Byte).length : Int) = (⟨2, []⟩ : DataSourceWorker).packetSize
      ∧ (⟨2, []⟩ : DataSourceWorker).packetSize
          ≤ ((((⟨2, []⟩ : DataSourceWorker).buffer ++ [1, 2, 3]).length : Int)) :=
  (no_short_packet ⟨2, []⟩ [1, 2, 3] [1, 2] (by decide)).1 (by decide)

/-- Claim C4: every data-collection callback of the three transports
emits at most one packet per delivered chunk, whatever the buffer state —
even when the buffer holds several complete packets after the append
(last conjunct: P = 2, a fresh worker fed 6 bytes emits exactly one
packet, although three complete packets are available). -/
theorem at_most_one_packet_per_chunk (w : DataSourceWorker) (c : List Byte) :
    (collectData w c).2.length ≤ 1
      ∧ (∀ w2 pkts, bleCollectData w c = .ok (w2, pkts) → pkts.length ≤ 1)
      ∧ (collectMany ⟨2, []⟩ [[0, 1, 2, 3, 4, 5]]).2.length = 1 := by
  refine ⟨?_, ?_, by decide⟩
  · by_cases h : w.packetSize ≤ ((w.buffer ++ c).length : Int)
    · rw [collectData_emits w c h]
      simp
    · rw [collectData_buffers w c h]
      simp
  · intro w2 pkts heq
    by_cases h4 : c.length % 4 = 0
    · rw [bleCollectData_ok w c h4] at heq
      have hp : pkts = (collectData w c).2 :=
        (congrArg Prod.snd (Except.ok.inj heq)).symm
      subst hp
      by_cases h : w.packetSize ≤ ((w.buffer ++ c).length : Int)
      · rw [collectData_emits w c h]
        simp
      · rw [collectData_buffers w c h]
        simp
    · rw [bleCollectData_raises w c h4] at heq
      exact Except.noConfusion heq

/-- Witness for C4: the BLE handler fed 8 bytes with P = 4 emits one
packet. -/
theorem at_most_one_packet_per_chunk_witness :
    ([[0, 1, 2, 3]] : List (List Byte)).length ≤ 1 :=
  (at_most_one_packet_per_chunk ⟨4, []⟩ [0, 1, 2, 3, 4, 5, 6, 7]).2.1
    ⟨4, [4, 5, 6, 7]⟩ [[0, 1, 2, 3]] (by rfl)

/-- Claim C9: chunk-boundary independence for a single packet: for every
packet size P > 0 and every P-byte content, feeding the bytes one at a
time (P calls of one byte each) to a fresh worker yields the same single
final packet, with empty remainder, as feeding all P bytes in one call. -/
theorem byte_by_byte_eq_single_feed (P : Nat) (content : List Byte)
    (hP : 0 < P) (hlen : content.length = P) :
    collectMany ⟨(P : Int), []⟩ (content.map fun b => [b])
        = (⟨(P : Int), []⟩, [content])
      ∧ collectMany ⟨(P : Int), []⟩ [content] = (⟨(P : Int), []⟩, [content]) := by
  have hne : content ≠ [] := by
    intro hc
    rw [hc] at hlen
    simp at hlen
    omega
  constructor
  · simpa using collectMany_singletons P content [] (by simpa using hlen) hne
  · simp only [collectMany]
    rw [collectData_emits ⟨(P : Int), []⟩ content
      (by show (P : Int) ≤ (([] ++ content).length : Int); simp [hlen])]
    simp [← hlen]

/-- Witness for C9 at P = 2 and content [7,9]. -/
theorem byte_by_byte_eq_single_feed_witness :
    collectMany ⟨((2 : Nat) : Int), []⟩ ([7, 9].map fun b => [b])
        = (⟨((2 : Nat) : Int), []⟩, [[7, 9]])
      ∧ collectMany ⟨((2 : Nat) : Int), []⟩ [[7, 9]]
          = (⟨((2 : Nat) : Int), []⟩, [[7, 9]]) :=
  byte_by_byte_eq_single_feed 2 [7, 9] (by decide) (by decide)

end BioGui
